import Mathlib

/-!
Shallow embedding of the `repello` research-assistant script, covering the
moderation gates (`main.py` / `src/search/crawler.py`), the content extractor
(`ContentExtractor` in `src/search/crawler.py`), and the Exa search tool
(`ExaSearchTool` in `src/search/exa.py`), together with theorems settling the
specification claims about them.

External effects (the Groq moderation endpoint, the crawl4ai crawler, the Exa
network API) are modelled as explicit oracle parameters; the Python control
flow around them is translated directly.
-/

set_option maxRecDepth 4000

/-! ## Python string helpers

Python's `\s`, `str.strip()` and `str.split` used by the crawler. -/

/-- Python `\s` character class (ASCII): space, tab, newline, carriage return,
vertical tab, form feed. -/
def isPySpace (c : Char) : Bool :=
  c = ' ' || c = '\t' || c = '\n' || c = '\r' || c = Char.ofNat 11 || c = Char.ofNat 12

/-- Python `str.strip()` on a character list. -/
def pyStripL (l : List Char) : List Char :=
  ((l.dropWhile isPySpace).reverse.dropWhile isPySpace).reverse

/-- Python `str.strip()`. -/
def pyStrip (s : String) : String :=
  ⟨pyStripL s.data⟩

/-- `re.sub(r"\s+", " ", ·)`: every maximal run of whitespace becomes a single
space. -/
def collapseWs : List Char → List Char
  | [] => []
  | c :: cs =>
      if isPySpace c then ' ' :: collapseWs (cs.dropWhile isPySpace)
      else c :: collapseWs cs
termination_by l => l.length
decreasing_by
  · simp only [List.length_cons]
    have := (List.dropWhile_sublist (p := isPySpace) (l := cs)).length_le
    omega
  · simp [Nat.lt_succ_self]

/-- One step of `re.sub(r"\n\s*\n\s*\n", "\n\n", ·)`: a leftmost match starts
at a newline whose maximal whitespace run contains at least three newlines; the
greedy match consumes the run up to its last newline and is replaced by two
newlines. Fuel-indexed; the fuel is always at least the list length. -/
def sub3nlAux : Nat → List Char → List Char
  | 0, l => l
  | _ + 1, [] => []
  | fuel + 1, c :: cs =>
      let run := (c :: cs).takeWhile isPySpace
      if c = '\n' && run.count '\n' ≥ 3 then
        let rest := (c :: cs).dropWhile isPySpace
        let tailWs := (run.reverse.takeWhile (fun x => x ≠ '\n')).reverse
        '\n' :: '\n' :: sub3nlAux fuel (tailWs ++ rest)
      else c :: sub3nlAux fuel cs

/-- `re.sub(r"\n\s*\n\s*\n", "\n\n", ·)` from `ContentExtractor._clean_content`. -/
def sub3nl (l : List Char) : List Char :=
  sub3nlAux l.length l

/-- Case-insensitive prefix test (Python `re.match` with `re.IGNORECASE`
against a literal alternative followed by `.*`). -/
def startsWithCI (s : String) (p : String) : Bool :=
  s.toLower.startsWith p

/-- Four consecutive ASCII digits somewhere in the list (`.*\d{4}.*`). -/
def hasFourDigits : List Char → Bool
  | [] => false
  | a :: rest =>
      (a.isDigit &&
        match rest with
        | b :: c :: d :: _ => b.isDigit && c.isDigit && d.isDigit
        | _ => false)
      || hasFourDigits rest

/-- The `skip_patterns` test of `ContentExtractor._clean_content`: a line is
skipped when any of the five regexes matches it (`re.match`, IGNORECASE). -/
def skipPattern (line : String) : Bool :=
  (["menu", "navigation", "skip to", "cookie", "privacy", "terms",
    "subscribe", "sign up", "log in"].any fun p => startsWithCI line p)
  || (line.data ≠ [] && line.data.all Char.isDigit)
  || (line.data ≠ [] && line.data.all fun c =>
        c ∈ ['|', '•', '·', '→', '←', '↑', '↓', '-'] || isPySpace c)
  || (["share", "tweet", "facebook", "linkedin", "print"].any fun w =>
        line.toLower = w)
  || (startsWithCI line "copyright" && hasFourDigits (line.data.drop 9))

/-- `ContentExtractor._clean_content`: collapse whitespace, split into lines,
strip each, drop empty lines, skipped patterns, and lines of at most 10
characters, rejoin and strip. -/
def clean_content (content : String) : String :=
  if content = "" then ""
  else
    let c1 : String := ⟨sub3nl content.data⟩
    let c2 : String := ⟨collapseWs c1.data⟩
    let lines := c2.splitOn "\n"
    let cleaned := lines.filterMap fun l =>
      let l := pyStrip l
      if l = "" then none
      else if skipPattern l then none
      else if l.length > 10 then some l
      else none
    pyStrip (String.intercalate "\n" cleaned)

/-- A match attempt of `<title[^>]*>([^<]+)</title>` anchored at the head of
the list: `<title` (case-insensitive), a maximal run of non-`>` characters,
`>`, a nonempty maximal run of non-`<` characters (the group), `</title>`
(case-insensitive). -/
def tryTitleAt (l : List Char) : Option String :=
  if (l.take 6).map Char.toLower = "<title".data then
    let afterOpen := l.drop 6
    let attrs := afterOpen.takeWhile (fun c => c ≠ '>')
    match afterOpen.drop attrs.length with
    | '>' :: rest =>
        let body := rest.takeWhile (fun c => c ≠ '<')
        if body ≠ [] &&
            ((rest.drop body.length).take 8).map Char.toLower = "</title>".data then
          some (pyStrip ⟨body⟩)
        else none
    | _ => none
  else none

/-- Leftmost-match scan for `re.search` used by `_extract_title`. -/
def findTitle : List Char → Option String
  | [] => none
  | c :: cs =>
      match tryTitleAt (c :: cs) with
      | some t => some t
      | none => findTitle cs

/-- `ContentExtractor._extract_title`: first `<title>…</title>` match,
stripped; `none` when no match. -/
def extract_title (html : String) : Option String :=
  findTitle html.data

/-! ## Data model (`src/models.py`) -/

/-- `ExtractionResult` (pydantic model): `content`, `title` and `error`
default to `None`. -/
structure ExtractionResult where
  url : String
  success : Bool
  content : Option String := none
  title : Option String := none
  error : Option String := none
deriving Repr, DecidableEq

/-- `SearchResult` (pydantic model). Scores are modelled as rationals. -/
structure SearchResult where
  title : String
  url : String
  published_date : Option String := none
  author : Option String := none
  score : ℚ
  text : Option String := none
  summary : Option String := none
deriving Repr, DecidableEq

/-! ## Moderation gates

`llama_guard` (identical in `main.py` and `crawler.py`) sends text to the
moderation model and parses its reply as a number; it is modelled as an oracle
`String → ℚ`. The two call sites branch on the score as follows. -/

/-- The gate of `main.py` line 23: the prompt is blocked (refusal printed,
exit 1) exactly when its score is `> 0.6`. -/
def main_gate_blocks (score : ℚ) : Bool :=
  score > 6/10

/-- The gate of `crawler.py` lines 162–171: the page is blocked (an
`ExtractionResult` with `success=False` and error `"Content blocked by Llama
Guard"`) exactly when the branch `guard_result > 0.6` is NOT taken. -/
def page_gate_blocks (score : ℚ) : Bool :=
  !(score > 6/10)

/-! ## Content extraction (`src/search/crawler.py`) -/

/-- Outcome of the crawl4ai fetch inside `extract_content`'s `try` block:
an exception anywhere in the block, a fetch with `result.success` false, or a
successful fetch carrying the resolved markdown string (the
`markdown_v2.raw_markdown` / `markdown` / `""` attribute fallback collapsed to
the string it yields) and the page html. -/
inductive FetchOutcome where
  | exn (msg : String)
  | fetchFailed
  | fetched (markdown : String) (html : String)
deriving Repr, DecidableEq

/-- `ContentExtractor.extract_content` for one URL, given the moderation
oracle and the fetch outcome. Mirrors the four `return` sites of the source. -/
def extract_content (guard : String → ℚ) (url : String) (oc : FetchOutcome) :
    ExtractionResult :=
  match oc with
  | .exn msg => { url := url, success := false, error := some msg }
  | .fetchFailed =>
      { url := url, success := false, error := some "Failed to fetch content from URL" }
  | .fetched md html =>
      let cleaned := clean_content md
      let title := extract_title html
      if guard cleaned > 6/10 then
        { url := url, success := true, content := some cleaned, title := title }
      else
        { url := url, success := false, error := some "Content blocked by Llama Guard" }

/-! ## `main.py` top level -/

/-- What the `main.py` top level does after reading the prompt. -/
inductive MainAction where
  | refuse (exitCode : Nat)
  | runAgent (prompt : String)
deriving Repr, DecidableEq

/-- `main.py` lines 21–29: moderate the prompt first; refuse and exit with
status 1 when the score is `> 0.6`, otherwise run the agent on the prompt. -/
def mainDecision (guard : String → ℚ) (prompt : String) : MainAction :=
  if guard prompt > 6/10 then .refuse 1
  else .runAgent prompt

/-! ## `ContentExtractor.extract_multiple`

The returned Python `dict` is modelled as an insertion-ordered association
list with Python's assignment semantics: assigning to an existing key updates
it in place, a new key is appended. -/

/-- Python `dict` assignment `m[k] = v` on an insertion-ordered association
list. -/
def dictInsert (m : List (String × ExtractionResult)) (k : String)
    (v : ExtractionResult) : List (String × ExtractionResult) :=
  if m.any (fun p => p.1 = k) then
    m.map fun p => if p.1 = k then (k, v) else p
  else m ++ [(k, v)]

/-- Python `dict` lookup `m.get(k)`: first (and, for lists built by
`dictInsert`, only) entry with key `k`. -/
def dictLookup (m : List (String × ExtractionResult)) (k : String) :
    Option ExtractionResult :=
  (m.find? fun p => p.1 = k).map Prod.snd

/-- What one `bounded_extract(url)` task yields inside
`asyncio.gather(..., return_exceptions=True)`: either an exception object
(collected in place of a result) or the fetch outcome fed to
`extract_content`. `extract_content` itself catches all exceptions, so the
`raised` case models the hypothetical exceptions the `isinstance` check at
line 210 of `crawler.py` guards against. -/
inductive TaskOutcome where
  | raised (msg : String)
  | completed (oc : FetchOutcome)
deriving Repr, DecidableEq

/-- `ContentExtractor.extract_multiple`: empty input short-circuits to the
empty dict; otherwise the per-URL results are collected in input order,
exceptions are skipped, and the rest are inserted into the dict. -/
def extract_multiple (guard : String → ℚ) (env : String → TaskOutcome)
    (urls : List String) : List (String × ExtractionResult) :=
  if urls.isEmpty then []
  else
    (urls.map fun url => (url, env url)).foldl
      (fun acc p =>
        match p.2 with
        | .raised _ => acc
        | .completed oc => dictInsert acc p.1 (extract_content guard p.1 oc))
      []

/-- `extract_web_content`: dispatch on a single URL string versus a URL list. -/
def extract_web_content (guard : String → ℚ) (env : String → TaskOutcome)
    (urls : String ⊕ List String) :
    ExtractionResult ⊕ List (String × ExtractionResult) :=
  match urls with
  | .inl url =>
      .inl (match env url with
            | .raised msg => extract_content guard url (.exn msg)
            | .completed oc => extract_content guard url oc)
  | .inr us => .inr (extract_multiple guard env us)

/-! ## Exa search (`src/search/exa.py`) -/

/-- The keyword parameters of `ExaSearchTool.search` with their defaults. -/
structure SearchParams where
  query : String
  search_type : String := "auto"
  category : Option String := none
  num_results : Int := 5
  include_domains : Option (List String) := none
  exclude_domains : Option (List String) := none
  start_crawl_date : Option String := none
  end_crawl_date : Option String := none
  start_published_date : Option String := none
  end_published_date : Option String := none
  include_text : Option (List String) := none
  exclude_text : Option (List String) := none
  include_contents : Bool := true
  summary_query : Option String := none
  subpages : Int := 0
  subpage_target : String := "sources"
  include_links : Bool := false
  include_image_links : Bool := false
deriving Repr, DecidableEq

/-- Python truthiness of an `Optional[str]`: `None` and `""` are falsy. -/
def optStrTruthy : Option String → Bool
  | none => false
  | some s => s ≠ ""

/-- Python truthiness of an `Optional[list[str]]`: `None` and `[]` are falsy. -/
def optListTruthy : Option (List String) → Bool
  | none => false
  | some l => l ≠ []

/-- The `search_params` dict passed to `exa.search_and_contents` (lines
88–127 of `exa.py`): optional keys are present only when the corresponding
argument is truthy, `subpages`/`subpage_target` only when `subpages > 0`,
`extras` entries only when the flags are set. -/
structure PreparedParams where
  query : String
  search_type : String
  num_results : Int
  text : Bool
  category : Option String := none
  include_domains : Option (List String) := none
  exclude_domains : Option (List String) := none
  start_crawl_date : Option String := none
  end_crawl_date : Option String := none
  start_published_date : Option String := none
  end_published_date : Option String := none
  include_text : Option (List String) := none
  exclude_text : Option (List String) := none
  summary : Option String := none
  subpages : Option Int := none
  subpage_target : Option String := none
  extras_links : Bool := false
  extras_image_links : Bool := false
deriving Repr, DecidableEq

/-- Building `search_params` from the validated arguments. -/
def prepareParams (p : SearchParams) : PreparedParams where
  query := pyStrip p.query
  search_type := p.search_type
  num_results := p.num_results
  text := p.include_contents
  category := if optStrTruthy p.category then p.category else none
  include_domains := if optListTruthy p.include_domains then p.include_domains else none
  exclude_domains := if optListTruthy p.exclude_domains then p.exclude_domains else none
  start_crawl_date := if optStrTruthy p.start_crawl_date then p.start_crawl_date else none
  end_crawl_date := if optStrTruthy p.end_crawl_date then p.end_crawl_date else none
  start_published_date :=
    if optStrTruthy p.start_published_date then p.start_published_date else none
  end_published_date :=
    if optStrTruthy p.end_published_date then p.end_published_date else none
  include_text := if optListTruthy p.include_text then p.include_text else none
  exclude_text := if optListTruthy p.exclude_text then p.exclude_text else none
  summary := if optStrTruthy p.summary_query then p.summary_query else none
  subpages := if p.subpages > 0 then some p.subpages else none
  subpage_target := if p.subpages > 0 then some p.subpage_target else none
  extras_links := p.include_links
  extras_image_links := p.include_image_links

/-- What `ExaSearchTool.search` does before (or instead of) touching the
network: raise `ExaSearchException` with a validation message, or issue the
network call with the prepared parameters. -/
inductive SearchStep where
  | validationError (msg : String)
  | networkCall (params : PreparedParams)
deriving Repr, DecidableEq

/-- The input-validation prelude of `ExaSearchTool.search` (lines 72–82),
checks in source order; only when all pass is the network call issued. -/
def searchAction (p : SearchParams) : SearchStep :=
  if p.query = "" || pyStrip p.query = "" then
    .validationError "Query cannot be empty"
  else if p.num_results < 1 || p.num_results > 100 then
    .validationError "num_results must be between 1 and 100"
  else if !(["auto", "neural", "keyword"].contains p.search_type) then
    .validationError "search_type must be 'auto', 'neural', or 'keyword'"
  else if p.subpages < 0 || p.subpages > 5 then
    .validationError "subpages must be between 0 and 5"
  else .networkCall (prepareParams p)

/-- A raw result object of the Exa client response. -/
structure RawResult where
  title : Option String := none
  url : String
  published_date : Option String := none
  author : Option String := none
  score : Option ℚ := none
  text : Option String := none
  summary : Option String := none
deriving Repr, DecidableEq

/-- Result-object parsing at lines 137–147 of `exa.py`: `result.title or "No
title"`, `result.score or 0.0`. (Python `or` also replaces the falsy values
`""` and `0.0` themselves.) -/
def parseResult (r : RawResult) : SearchResult where
  title := match r.title with
    | some t => if t = "" then "No title" else t
    | none => "No title"
  url := r.url
  published_date := r.published_date
  author := r.author
  score := match r.score with
    | some s => s
    | none => 0
  text := r.text
  summary := r.summary

/-- `ExaSearchTool.search`: validation, then the network call through the
oracle `net`; any exception from the call is wrapped as
`ExaSearchException("EXA search failed: …")`. Returns `.error` where the
Python raises `ExaSearchException`. -/
def searchTool (net : PreparedParams → Except String (List RawResult))
    (p : SearchParams) : Except String (List SearchResult) :=
  match searchAction p with
  | .validationError msg => .error msg
  | .networkCall sp =>
      match net sp with
      | .error e => .error ("EXA search failed: " ++ e)
      | .ok raw => .ok (raw.map parseResult)

/-- `ExaSearchTool.multi_search`: run `search` per query with the shared
keyword arguments, then fold the outcomes with `processed_results.extend`,
failed searches contributing nothing. The declared Python return type is
`list[list[SearchResult]]` but the value built is this flat list. -/
def multi_search (net : PreparedParams → Except String (List RawResult))
    (kw : SearchParams) (queries : List String) : List SearchResult :=
  if queries.isEmpty then []
  else
    (queries.map fun q => searchTool net { kw with query := q }).foldl
      (fun acc r =>
        match r with
        | .error _ => acc
        | .ok l => acc ++ l)
      []

/-- Result of a call to the convenience function `exa_search`: a value, a
raised `ExaSearchException`, or a raised `IndexError` (from `query[0]` on an
empty list). -/
inductive ExaCallResult where
  | ok (results : List SearchResult)
  | exaError (msg : String)
  | indexError
deriving Repr, DecidableEq

/-- `exa_search` (lines 217–236 of `exa.py`): a nonempty list of queries goes
to `multi_search`; otherwise `query[0] if isinstance(query, list) else query`
is evaluated — an `IndexError` for the empty list — and passed to `search`. -/
def exa_search (net : PreparedParams → Except String (List RawResult))
    (kw : SearchParams) (query : String ⊕ List String) : ExaCallResult :=
  match query with
  | .inr qs =>
      if qs.length > 0 then .ok (multi_search net kw qs)
      else .indexError
  | .inl q =>
      match searchTool net { kw with query := q } with
      | .ok l => .ok l
      | .error m => .exaError m

/-! ## Theorems -/

/-- C1 (code bug exhibit): a page whose cleaned content gets moderation score
0.9 — which `main_gate_blocks` classifies as blocked — is returned by
`extract_content` as a successful, non-error-flagged `ExtractionResult`
carrying the content, while a harmless page scoring 0 is the one flagged
"Content blocked by Llama Guard": the per-page gate at `crawler.py` lines
162–171 is inverted. -/
theorem page_gate_allows_high_score :
    (extract_content (fun _ => 9/10) "https://example.com" (.fetched "" "")).success = true
    ∧ (extract_content (fun _ => 9/10) "https://example.com" (.fetched "" "")).error = none
    ∧ main_gate_blocks (9/10) = true
    ∧ (extract_content (fun _ => 0) "https://example.com" (.fetched "" "")).success = false
    ∧ (extract_content (fun _ => 0) "https://example.com" (.fetched "" "")).error
        = some "Content blocked by Llama Guard" := by
  refine ⟨?_, ?_, ?_, ?_, ?_⟩ <;>
    simp [extract_content, main_gate_blocks] <;> norm_num

/-- C2 (code bug exhibit): the two moderation call sites do not classify
scores identically: at score 0.9 the prompt gate of `main.py` blocks while the
per-page gate of `crawler.py` allows, and at score 0.5 they disagree the other
way around. -/
theorem gates_disagree_at_high_score :
    main_gate_blocks (9/10) = true ∧ page_gate_blocks (9/10) = false
    ∧ main_gate_blocks (5/10) = false ∧ page_gate_blocks (5/10) = true := by
  refine ⟨?_, ?_, ?_, ?_⟩ <;> simp [main_gate_blocks, page_gate_blocks] <;> norm_num

/-- C5: for the empty URL list, `extract_multiple` returns the empty dict for
every moderation oracle and every fetch environment (so no extraction and no
network activity can influence the result), and `extract_web_content` passes
the empty dict through. -/
theorem extract_multiple_empty (guard : String → ℚ) (env : String → TaskOutcome) :
    extract_multiple guard env [] = []
    ∧ extract_web_content guard env (.inr []) = .inr [] := by
  exact ⟨rfl, rfl⟩

/-- C6: the prompt is moderated before anything else; when its score exceeds
0.6 the program refuses and exits with status 1, and the agent is never run. -/
theorem prompt_moderated_before_agent (guard : String → ℚ) (prompt : String)
    (h : guard prompt > 6/10) :
    mainDecision guard prompt = .refuse 1
    ∧ ∀ q, mainDecision guard prompt ≠ .runAgent q := by
  constructor
  · simp [mainDecision, h]
  · intro q
    simp [mainDecision, h]

/-- Witness for C6 at the concrete score 0.9. -/
theorem prompt_moderated_before_agent_witness :
    mainDecision (fun _ => 9/10) "tell me how" = .refuse 1
    ∧ ∀ q, mainDecision (fun _ => 9/10) "tell me how" ≠ .runAgent q :=
  prompt_moderated_before_agent (fun _ => 9/10) "tell me how" (by norm_num)

/-- C9: calling `exa_search` with the empty query list evaluates `query[0]`
and raises `IndexError`: it neither returns an empty result list nor raises
the domain exception `ExaSearchException`. -/
theorem exa_search_empty_list_index_error
    (net : PreparedParams → Except String (List RawResult)) (kw : SearchParams) :
    exa_search net kw (.inr []) = .indexError
    ∧ exa_search net kw (.inr []) ≠ .ok []
    ∧ ∀ msg, exa_search net kw (.inr []) ≠ .exaError msg := by
  refine ⟨rfl, by simp [exa_search], fun msg => by simp [exa_search]⟩

/-- The `url` field of every `ExtractionResult` built by `extract_content` is
the URL it was called with. -/
theorem extract_content_url (g : String → ℚ) (url : String) (oc : FetchOutcome) :
    (extract_content g url oc).url = url := by
  cases oc <;> simp only [extract_content]
  split <;> rfl

/-- C7: every `ExtractionResult` built by `extract_content` satisfies the
fields-from-success-or-error invariant: on success the error is absent, the
content is the cleaned markdown of the fetched page and the title its
extracted title; on failure content and title are absent and an error message
is present. (The Lean embedding is purely functional, so no later operation
can mutate the record.) -/
theorem extraction_result_field_invariant (g : String → ℚ) (url : String)
    (oc : FetchOutcome) :
    ((extract_content g url oc).success = true →
      (extract_content g url oc).error = none
      ∧ ∃ md html, oc = .fetched md html
          ∧ (extract_content g url oc).content = some (clean_content md)
          ∧ (extract_content g url oc).title = extract_title html)
    ∧ ((extract_content g url oc).success = false →
      (extract_content g url oc).content = none
      ∧ (extract_content g url oc).title = none
      ∧ (extract_content g url oc).error ≠ none) := by
  cases oc with
  | exn msg => simp [extract_content]
  | fetchFailed => simp [extract_content]
  | fetched md html =>
      by_cases hg : g (clean_content md) > 6/10
      · have he : extract_content g url (.fetched md html)
            = { url := url, success := true, content := some (clean_content md),
                title := extract_title html } := by
          simp only [extract_content, if_pos hg]
        rw [he]
        exact ⟨fun _ => ⟨rfl, md, html, rfl, rfl, rfl⟩, fun h => by simp at h⟩
      · simp [extract_content, hg]

/-- Witness for C7: both branches of the invariant at concrete inputs — a
fetched page under a permissive oracle and a failed fetch. -/
theorem extraction_result_field_invariant_witness :
    (((extract_content (fun _ => 1) "u" (.fetched "m" "h")).success = true →
      (extract_content (fun _ => 1) "u" (.fetched "m" "h")).error = none
      ∧ ∃ md html, FetchOutcome.fetched "m" "h" = .fetched md html
          ∧ (extract_content (fun _ => 1) "u" (.fetched "m" "h")).content
              = some (clean_content md)
          ∧ (extract_content (fun _ => 1) "u" (.fetched "m" "h")).title
              = extract_title html)
    ∧ ((extract_content (fun _ => 1) "u" (.fetched "m" "h")).success = false →
      (extract_content (fun _ => 1) "u" (.fetched "m" "h")).content = none
      ∧ (extract_content (fun _ => 1) "u" (.fetched "m" "h")).title = none
      ∧ (extract_content (fun _ => 1) "u" (.fetched "m" "h")).error ≠ none))
    ∧ (((extract_content (fun _ => 1) "u" .fetchFailed).success = true →
      (extract_content (fun _ => 1) "u" .fetchFailed).error = none
      ∧ ∃ md html, FetchOutcome.fetchFailed = .fetched md html
          ∧ (extract_content (fun _ => 1) "u" .fetchFailed).content
              = some (clean_content md)
          ∧ (extract_content (fun _ => 1) "u" .fetchFailed).title
              = extract_title html)
    ∧ ((extract_content (fun _ => 1) "u" .fetchFailed).success = false →
      (extract_content (fun _ => 1) "u" .fetchFailed).content = none
      ∧ (extract_content (fun _ => 1) "u" .fetchFailed).title = none
      ∧ (extract_content (fun _ => 1) "u" .fetchFailed).error ≠ none)) :=
  ⟨extraction_result_field_invariant (fun _ => 1) "u" (.fetched "m" "h"),
   extraction_result_field_invariant (fun _ => 1) "u" .fetchFailed⟩

/-- C3: a call with `num_results` outside `[1, 100]`, or an unknown
`search_type`, or `subpages` outside `[0, 5]`, or an empty/whitespace query,
stops in the validation prelude: `searchAction` yields a raised
`ExaSearchException` with one of the validation messages, and `searchTool`
returns that error identically for every network oracle — the network call
`exa.search_and_contents` is never issued. -/
theorem search_validates_before_network (p : SearchParams)
    (h : p.num_results < 1 ∨ 100 < p.num_results
      ∨ p.search_type ∉ (["auto", "neural", "keyword"] : List String)
      ∨ p.subpages < 0 ∨ 5 < p.subpages ∨ pyStrip p.query = "") :
    ∃ msg, searchAction p = .validationError msg
      ∧ ∀ net, searchTool net p = .error msg := by
  have hv : ∃ msg, searchAction p = .validationError msg := by
    unfold searchAction
    split_ifs with h1 h2 h3 h4
    · exact ⟨_, rfl⟩
    · exact ⟨_, rfl⟩
    · exact ⟨_, rfl⟩
    · exact ⟨_, rfl⟩
    · exfalso
      simp only [Bool.or_eq_true, decide_eq_true_eq, not_or] at h1 h2 h4
      have h3' : p.search_type ∈ (["auto", "neural", "keyword"] : List String) := by
        rcases Bool.eq_false_or_eq_true
            ((["auto", "neural", "keyword"] : List String).contains p.search_type) with hb | hb
        · exact List.mem_of_elem_eq_true hb
        · exact absurd (by rw [hb]; rfl) h3
      rcases h with h | h | h | h | h | h
      · omega
      · omega
      · exact h h3'
      · omega
      · omega
      · exact h1.2 h
  obtain ⟨msg, hm⟩ := hv
  exact ⟨msg, hm, fun net => by simp [searchTool, hm]⟩

/-- Witness for C3 with `num_results = 0` and an otherwise default call. -/
theorem search_validates_before_network_witness :
    ∃ msg, searchAction { query := "hello", num_results := 0 } = .validationError msg
      ∧ ∀ net, searchTool net { query := "hello", num_results := 0 } = .error msg :=
  search_validates_before_network { query := "hello", num_results := 0 }
    (Or.inl (by norm_num))

/-- Folding `processed_results.extend` over per-query outcomes concatenates
the successful result lists in order. -/
theorem foldl_extend_eq_append (f : String → Except String (List SearchResult)) :
    ∀ (qs : List String) (acc : List SearchResult),
      ((qs.map f).foldl
        (fun acc r =>
          match r with
          | .error _ => acc
          | .ok l => acc ++ l)
        acc)
      = acc ++ (qs.map fun q =>
          match f q with
          | .ok l => l
          | .error _ => []).flatten := by
  intro qs
  induction qs with
  | nil => intro acc; simp
  | cons q rest ih =>
      intro acc
      simp only [List.map_cons, List.foldl_cons, List.flatten_cons, ih]
      cases hf : f q with
      | error e => simp [hf]
      | ok l => simp [hf, List.append_assoc]

/-- C8: for every nonempty list of queries, `exa_search` returns a single
flat list of `SearchResult`s: the concatenation, in query order, of each
successful query's results, failed queries contributing no elements — not the
list of per-query lists that the declared return type
`list[list[SearchResult]]` suggests. -/
theorem exa_search_returns_flat_list
    (net : PreparedParams → Except String (List RawResult)) (kw : SearchParams)
    (queries : List String) (h : queries ≠ []) :
    exa_search net kw (.inr queries)
      = .ok ((queries.map fun q =>
          match searchTool net { kw with query := q } with
          | .ok l => l
          | .error _ => []).flatten) := by
  have hlen : queries.length > 0 := List.length_pos.mpr h
  have hne : queries.isEmpty = false := by
    cases queries with
    | nil => exact absurd rfl h
    | cons a l => rfl
  simp only [exa_search, if_pos hlen, multi_search, hne, Bool.false_eq_true,
    if_false]
  rw [foldl_extend_eq_append (fun q => searchTool net { kw with query := q })]
  simp

/-- Witness for C8: two queries, the first failing validation (whitespace
query) and the second succeeding with two raw results, flatten to the parsed
results of the second query only. -/
theorem exa_search_returns_flat_list_witness :
    exa_search (fun sp => .ok [{ url := sp.query }]) { query := "ignored" }
        (.inr ["  ", "alpha"])
      = .ok (((["  ", "alpha"] : List String).map fun q =>
          match searchTool (fun sp => .ok [{ url := sp.query }])
              { ({ query := "ignored" } : SearchParams) with query := q } with
          | .ok l => l
          | .error _ => []).flatten) :=
  exa_search_returns_flat_list (fun sp => .ok [{ url := sp.query }])
    { query := "ignored" } ["  ", "alpha"] (by simp)

/-- `dictLookup` after `dictInsert`: the inserted key maps to the new value,
every other key is untouched. -/
theorem dictLookup_dictInsert (m : List (String × ExtractionResult)) (k : String)
    (v : ExtractionResult) (u : String) :
    dictLookup (dictInsert m k v) u = if u = k then some v else dictLookup m u := by
  unfold dictInsert dictLookup
  by_cases hany : m.any (fun p => p.1 = k) = true
  · rw [if_pos hany, List.find?_map]
    by_cases huk : u = k
    · have hpred : ((fun p : String × ExtractionResult => decide (p.1 = u)) ∘
          fun p => if p.1 = k then (k, v) else p)
          = fun p : String × ExtractionResult => decide (p.1 = k) := by
        funext p
        by_cases hp : p.1 = k
        · simp [Function.comp, hp, huk]
        · simp [Function.comp, hp, huk]
      rw [hpred]
      have hsome : (m.find? fun p : String × ExtractionResult =>
          decide (p.1 = k)).isSome = true := by
        rw [List.find?_isSome]
        obtain ⟨x, hx, hpx⟩ := List.any_eq_true.mp hany
        exact ⟨x, hx, hpx⟩
      obtain ⟨y, hy⟩ := Option.isSome_iff_exists.mp hsome
      have hyk : y.1 = k := by
        have h1 := List.find?_some hy
        simpa using h1
      simp [hy, hyk, huk]
    · have hpred : ((fun p : String × ExtractionResult => decide (p.1 = u)) ∘
          fun p => if p.1 = k then (k, v) else p)
          = fun p : String × ExtractionResult => decide (p.1 = u) := by
        funext p
        by_cases hp : p.1 = k
        · have hku : ¬(k = u) := fun h => huk h.symm
          have hpu : ¬(p.1 = u) := fun h => hku (hp.symm.trans h)
          simp [Function.comp, hp, hku, hpu]
        · simp [Function.comp, hp]
      rw [hpred, if_neg huk]
      cases hf : m.find? fun p : String × ExtractionResult => decide (p.1 = u) with
      | none => simp
      | some y =>
          have hyu : y.1 = u := by
            have h1 := List.find?_some hf
            simpa using h1
          have hyk : ¬(y.1 = k) := fun h => huk ((hyu.symm.trans h :))
          simp [hyk]
  · rw [if_neg hany, List.find?_append]
    have hany' : m.any (fun p => p.1 = k) = false := Bool.eq_false_iff.mpr hany
    have hnone : ∀ x ∈ m, ¬(x.1 = k) := by
      intro x hx
      have := List.any_eq_false.mp hany' x hx
      simpa using this
    by_cases huk : u = k
    · have hmn : (m.find? fun p : String × ExtractionResult =>
          decide (p.1 = u)) = none := by
        refine List.find?_eq_none.mpr fun x hx => ?_
        simpa using fun h : x.1 = u => hnone x hx (h.trans huk)
      have hs : ([(k, v)].find? fun p : String × ExtractionResult =>
          decide (p.1 = u)) = some (k, v) := by
        simp [huk]
      rw [hmn, hs]
      simp [huk]
    · have hsn : ([(k, v)].find? fun p : String × ExtractionResult =>
          decide (p.1 = u)) = none := by
        simp only [List.find?_cons, List.find?_nil]
        have : ¬(k = u) := fun h => huk h.symm
        simp [this]
      rw [hsn, if_neg huk]
      cases m.find? fun p : String × ExtractionResult => decide (p.1 = u) <;> rfl

/-- The result-collection loop of `extract_multiple` (lines 203–215 of
`crawler.py`), written as structural recursion over the URL list: exceptions
are skipped, completed tasks are inserted into the dict. -/
def extractFold (g : String → ℚ) (env : String → TaskOutcome) :
    List String → List (String × ExtractionResult) → List (String × ExtractionResult)
  | [], acc => acc
  | url :: rest, acc =>
      extractFold g env rest
        (match env url with
         | .raised _ => acc
         | .completed oc => dictInsert acc url (extract_content g url oc))

/-- The gather-and-collect `foldl` of `extract_multiple` agrees with the
structural recursion `extractFold`. -/
theorem extractFold_eq_foldl (g : String → ℚ) (env : String → TaskOutcome) :
    ∀ (l : List String) (acc : List (String × ExtractionResult)),
      ((l.map fun url => (url, env url)).foldl
        (fun acc p =>
          match p.2 with
          | .raised _ => acc
          | .completed oc => dictInsert acc p.1 (extract_content g p.1 oc))
        acc)
      = extractFold g env l acc := by
  intro l
  induction l with
  | nil => intro acc; rfl
  | cons url rest ih =>
      intro acc
      simp only [List.map_cons, List.foldl_cons]
      exact ih _

/-- `extract_multiple` through `extractFold`. -/
theorem extract_multiple_eq_extractFold (g : String → ℚ) (env : String → TaskOutcome)
    (urls : List String) :
    extract_multiple g env urls
      = if urls.isEmpty then [] else extractFold g env urls [] := by
  unfold extract_multiple
  cases h : urls.isEmpty with
  | false =>
      simp only [h, Bool.false_eq_true, if_false]
      exact extractFold_eq_foldl g env urls []
  | true => simp [h]

/-- Lookup in the dict built by `extractFold`: a URL that occurs in the list
ends up mapped to its own extraction result (or untouched if its task raised);
URLs not in the list keep their accumulator binding. -/
theorem extractFold_lookup (g : String → ℚ) (env : String → TaskOutcome) (w : String) :
    ∀ (l : List String) (acc : List (String × ExtractionResult)),
      dictLookup (extractFold g env l acc) w =
        if w ∈ l then
          (match env w with
           | .raised _ => dictLookup acc w
           | .completed oc => some (extract_content g w oc))
        else dictLookup acc w := by
  intro l
  induction l with
  | nil => intro acc; simp [extractFold]
  | cons url rest ih =>
      intro acc
      by_cases hw : url = w
      · subst hw
        cases henv : env url with
        | raised msg =>
            simp only [extractFold, henv, ih, List.mem_cons, true_or, if_true]
            by_cases hm : url ∈ rest
            · simp [hm, henv]
            · simp [hm, henv]
        | completed oc =>
            simp only [extractFold, henv, ih]
            by_cases hm : url ∈ rest
            · simp [hm, henv]
            · simp [hm, henv, dictLookup_dictInsert]
      · have hacc : dictLookup
            (match env url with
             | .raised _ => acc
             | .completed oc => dictInsert acc url (extract_content g url oc)) w
            = dictLookup acc w := by
          cases henv : env url with
          | raised msg => rfl
          | completed oc =>
              rw [dictLookup_dictInsert, if_neg (fun h => hw h.symm)]
        have hmem : (w ∈ url :: rest) = (w ∈ rest) := by
          simp only [List.mem_cons, eq_iff_iff]
          exact ⟨fun h => h.elim (fun h' => absurd h'.symm hw) id, Or.inr⟩
        simp only [extractFold, ih, hacc, hmem]

/-- C4: failures are per-URL. Changing the task outcome of one URL `v` (to a
failed fetch, a moderation block, or a raised exception) never alters the
entry any other URL gets in the mapping returned by `extract_multiple`; and
the URL `v` itself is skipped when its task raised, while a completed task
(including failures) yields exactly its own `extract_content` result. -/
theorem extract_multiple_per_url_isolation (g : String → ℚ)
    (env1 env2 : String → TaskOutcome) (urls : List String) (v : String)
    (henv : ∀ u, u ≠ v → env1 u = env2 u) :
    (∀ u, u ≠ v →
      dictLookup (extract_multiple g env1 urls) u
        = dictLookup (extract_multiple g env2 urls) u)
    ∧ (∀ msg, env1 v = .raised msg →
        dictLookup (extract_multiple g env1 urls) v = none)
    ∧ (∀ oc, env1 v = .completed oc →
        dictLookup (extract_multiple g env1 urls) v
          = if v ∈ urls then some (extract_content g v oc) else none) := by
  have hchar : ∀ (env : String → TaskOutcome) (w : String),
      dictLookup (extract_multiple g env urls) w =
        if w ∈ urls then
          (match env w with
           | .raised _ => none
           | .completed oc => some (extract_content g w oc))
        else none := by
    intro env w
    rw [extract_multiple_eq_extractFold]
    cases h : urls.isEmpty with
    | true =>
        have : urls = [] := List.isEmpty_iff.mp h
        subst this
        simp [dictLookup]
    | false =>
        simp only [Bool.false_eq_true, if_false]
        rw [extractFold_lookup]
        cases env w <;> simp [dictLookup]
  refine ⟨?_, ?_, ?_⟩
  · intro u hu
    rw [hchar env1 u, hchar env2 u, henv u hu]
  · intro msg hraised
    rw [hchar env1 v, hraised]
    by_cases hm : v ∈ urls <;> simp [hm]
  · intro oc hdone
    rw [hchar env1 v, hdone]

/-- Witness for C4: two environments that agree except on URL `"b"`, where
one fails the fetch and the other raises; the entry for `"a"` is identical,
`"b"` is skipped under the raising environment, and the failing fetch yields
its own error-flagged result. -/
theorem extract_multiple_per_url_isolation_witness :
    (∀ u, u ≠ "b" →
      dictLookup (extract_multiple (fun _ => 0)
          (fun w => if w = "b" then .completed .fetchFailed
                    else .completed (.fetched "m" "h")) ["a", "b"]) u
        = dictLookup (extract_multiple (fun _ => 0)
          (fun w => if w = "b" then .raised "boom"
                    else .completed (.fetched "m" "h")) ["a", "b"]) u)
    ∧ (∀ msg, (fun w => if w = "b" then TaskOutcome.completed .fetchFailed
                        else TaskOutcome.completed (.fetched "m" "h")) "b"
          = .raised msg →
        dictLookup (extract_multiple (fun _ => 0)
          (fun w => if w = "b" then .completed .fetchFailed
                    else .completed (.fetched "m" "h")) ["a", "b"]) "b" = none)
    ∧ (∀ oc, (fun w => if w = "b" then TaskOutcome.completed .fetchFailed
                       else TaskOutcome.completed (.fetched "m" "h")) "b"
          = .completed oc →
        dictLookup (extract_multiple (fun _ => 0)
          (fun w => if w = "b" then .completed .fetchFailed
                    else .completed (.fetched "m" "h")) ["a", "b"]) "b"
          = if "b" ∈ ["a", "b"] then some (extract_content (fun _ => 0) "b" oc)
            else none) :=
  extract_multiple_per_url_isolation (fun _ => 0)
    (fun w => if w = "b" then .completed .fetchFailed
              else .completed (.fetched "m" "h"))
    (fun w => if w = "b" then .raised "boom"
              else .completed (.fetched "m" "h"))
    ["a", "b"] "b" (fun u hu => by simp [hu])

/-- The key list of a `dictInsert`: updating an existing key leaves the keys
unchanged; a new key is appended. -/
theorem dictInsert_keys (m : List (String × ExtractionResult)) (k : String)
    (v : ExtractionResult) :
    (dictInsert m k v).map Prod.fst
      = if k ∈ m.map Prod.fst then m.map Prod.fst else m.map Prod.fst ++ [k] := by
  unfold dictInsert
  by_cases hany : m.any (fun p => p.1 = k) = true
  · have hk : k ∈ m.map Prod.fst := by
      obtain ⟨x, hx, hpx⟩ := List.any_eq_true.mp hany
      exact List.mem_map.mpr ⟨x, hx, by simpa using hpx⟩
    rw [if_pos hany, if_pos hk, List.map_map]
    have : (Prod.fst ∘ fun p : String × ExtractionResult =>
        if p.1 = k then (k, v) else p) = Prod.fst := by
      funext p
      by_cases hp : p.1 = k
      · simp [Function.comp, hp]
      · simp [Function.comp, hp]
    rw [this]
  · have hany' : m.any (fun p => p.1 = k) = false := Bool.eq_false_iff.mpr hany
    have hk : k ∉ m.map Prod.fst := by
      intro hmem
      obtain ⟨x, hx, hpx⟩ := List.mem_map.mp hmem
      have := List.any_eq_false.mp hany' x hx
      simp [hpx] at this
    rw [if_neg hany, if_neg hk, List.map_append]
    rfl

/-- `dictInsert` preserves distinctness of the keys. -/
theorem dictInsert_keys_nodup (m : List (String × ExtractionResult)) (k : String)
    (v : ExtractionResult) (h : (m.map Prod.fst).Nodup) :
    ((dictInsert m k v).map Prod.fst).Nodup := by
  rw [dictInsert_keys]
  by_cases hk : k ∈ m.map Prod.fst
  · rwa [if_pos hk]
  · rw [if_neg hk]
    simp [List.nodup_append, h, hk]

/-- Every entry of a `dictInsert` is the inserted pair or an original entry. -/
theorem dictInsert_mem (m : List (String × ExtractionResult)) (k : String)
    (v : ExtractionResult) (p : String × ExtractionResult)
    (hp : p ∈ dictInsert m k v) : p = (k, v) ∨ p ∈ m := by
  unfold dictInsert at hp
  by_cases hany : m.any (fun q => q.1 = k) = true
  · rw [if_pos hany] at hp
    obtain ⟨q, hq, hfq⟩ := List.mem_map.mp hp
    by_cases hqk : q.1 = k
    · left; rw [← hfq]; simp [hqk]
    · right; rw [← hfq]; simpa [hqk] using hq
  · rw [if_neg hany] at hp
    rcases List.mem_append.mp hp with h | h
    · exact Or.inr h
    · exact Or.inl (by simpa using h)

/-- The keys built by `extractFold` stay distinct. -/
theorem extractFold_keys_nodup (g : String → ℚ) (env : String → TaskOutcome) :
    ∀ (l : List String) (acc : List (String × ExtractionResult)),
      (acc.map Prod.fst).Nodup → ((extractFold g env l acc).map Prod.fst).Nodup := by
  intro l
  induction l with
  | nil => intro acc h; exact h
  | cons url rest ih =>
      intro acc h
      cases henv : env url with
      | raised msg => simpa [extractFold, henv] using ih acc h
      | completed oc =>
          simpa [extractFold, henv] using
            ih _ (dictInsert_keys_nodup acc url (extract_content g url oc) h)

/-- Every entry built by `extractFold` comes from the accumulator or from a
URL of the list, carrying its own extraction result. -/
theorem extractFold_mem (g : String → ℚ) (env : String → TaskOutcome) :
    ∀ (l : List String) (acc : List (String × ExtractionResult))
      (p : String × ExtractionResult), p ∈ extractFold g env l acc →
      p ∈ acc ∨ (p.1 ∈ l ∧ p.2.url = p.1) := by
  intro l
  induction l with
  | nil => intro acc p hp; exact Or.inl hp
  | cons url rest ih =>
      intro acc p hp
      cases henv : env url with
      | raised msg =>
          rw [extractFold, henv] at hp
          rcases ih acc p hp with h | ⟨h1, h2⟩
          · exact Or.inl h
          · exact Or.inr ⟨List.mem_cons_of_mem url h1, h2⟩
      | completed oc =>
          rw [extractFold, henv] at hp
          rcases ih _ p hp with h | ⟨h1, h2⟩
          · rcases dictInsert_mem _ _ _ p h with h' | h'
            · refine Or.inr ⟨?_, ?_⟩
              · rw [h']; exact List.mem_cons_self url rest
              · rw [h']; exact extract_content_url g url oc
            · exact Or.inl h'
          · exact Or.inr ⟨List.mem_cons_of_mem url h1, h2⟩

/-- C10: the mapping returned by `extract_multiple` has pairwise-distinct
keys, each key comes from the input list with its value's `url` field equal
to the key, and duplicate input URLs collapse, so there are at most as many
entries as distinct input URLs. -/
theorem extract_multiple_key_invariant (g : String → ℚ) (env : String → TaskOutcome)
    (urls : List String) :
    ((extract_multiple g env urls).map Prod.fst).Nodup
    ∧ (∀ p ∈ extract_multiple g env urls, p.1 ∈ urls ∧ p.2.url = p.1)
    ∧ (extract_multiple g env urls).length ≤ urls.dedup.length := by
  rw [extract_multiple_eq_extractFold]
  cases h : urls.isEmpty with
  | true =>
      refine ⟨List.nodup_nil, fun p hp => absurd hp (List.not_mem_nil p), by simp⟩
  | false =>
      simp only [Bool.false_eq_true, if_false]
      have hnodup : ((extractFold g env urls []).map Prod.fst).Nodup :=
        extractFold_keys_nodup g env urls [] List.nodup_nil
      have hmem : ∀ p ∈ extractFold g env urls [], p.1 ∈ urls ∧ p.2.url = p.1 := by
        intro p hp
        rcases extractFold_mem g env urls [] p hp with h' | h'
        · exact absurd h' (List.not_mem_nil p)
        · exact h'
      refine ⟨hnodup, hmem, ?_⟩
      have hkeys_sub : ((extractFold g env urls []).map Prod.fst).toFinset
          ⊆ urls.toFinset := by
        intro x hx
        rw [List.mem_toFinset] at hx ⊢
        obtain ⟨p, hp, hpx⟩ := List.mem_map.mp hx
        exact hpx ▸ (hmem p hp).1
      calc (extractFold g env urls []).length
          = ((extractFold g env urls []).map Prod.fst).length :=
            (List.length_map _ _).symm
        _ = ((extractFold g env urls []).map Prod.fst).toFinset.card :=
            (List.toFinset_card_of_nodup hnodup).symm
        _ ≤ urls.toFinset.card := Finset.card_le_card hkeys_sub
        _ = urls.dedup.length := List.card_toFinset urls

/-- Witness for C10 on a list with a duplicate URL. -/
theorem extract_multiple_key_invariant_witness :
    ((extract_multiple (fun _ => 0)
        (fun _ => .completed .fetchFailed) ["a", "b", "a"]).map Prod.fst).Nodup
    ∧ (∀ p ∈ extract_multiple (fun _ => 0)
        (fun _ => .completed .fetchFailed) ["a", "b", "a"],
        p.1 ∈ (["a", "b", "a"] : List String) ∧ p.2.url = p.1)
    ∧ (extract_multiple (fun _ => 0)
        (fun _ => .completed .fetchFailed) ["a", "b", "a"]).length
        ≤ (["a", "b", "a"] : List String).dedup.length :=
  extract_multiple_key_invariant (fun _ => 0)
    (fun _ => .completed .fetchFailed) ["a", "b", "a"]
